import Mathlib

/-!
Shallow embedding of the SpookyHash C implementation in src/spooky-c.c
(a C port of Bob Jenkins spooky hash, version 1), together with proofs
checking the natural-language specification against it.

Machine integers are modelled as Nat with explicit reduction modulo 2^64
where the C uint64_t arithmetic wraps.  Byte buffers are List Nat (each
element a byte value).  Multi-byte loads are little-endian, as the code
assumes.
-/

namespace Spooky

/-- modulus of 64-bit machine arithmetic -/
def M64 : Nat := 2 ^ 64

/-- wrapping 64-bit addition (uint64_t +) -/
def add64 (a b : Nat) : Nat := (a + b) % M64

/-- rot64 from src/spooky-c.c lines 27-30: (x << k) | (x >> (64 - k)) on uint64_t -/
def rot64 (x k : Nat) : Nat := ((x <<< k) % M64) ||| (x >>> (64 - k))

/-- SC_CONST, src/spooky-c.c line 25 -/
def SC_CONST : Nat := 0xdeadbeefdeadbeef

/-- little-endian 64-bit word read from the first 8 bytes of a buffer -/
def le64 (l : List Nat) : Nat := (l.take 8).foldr (fun b acc => b + 256 * acc) 0

/-- little-endian 32-bit word read from the first 4 bytes of a buffer -/
def le32 (l : List Nat) : Nat := (l.take 4).foldr (fun b acc => b + 256 * acc) 0

/-- a 96-byte block viewed as 12 little-endian 64-bit words -/
def words12 (buf : List Nat) : List Nat :=
  (List.range 12).map (fun i => le64 ((buf.drop (8 * i)).take 8))

/-- the 12 uint64_t accumulators h0..h11 of the long path -/
structure H12 where
  h0 : Nat
  h1 : Nat
  h2 : Nat
  h3 : Nat
  h4 : Nat
  h5 : Nat
  h6 : Nat
  h7 : Nat
  h8 : Nat
  h9 : Nat
  h10 : Nat
  h11 : Nat
deriving DecidableEq, Repr

/-- the 4 uint64_t accumulators of the short path (a b c d alias h0 h1 h2 h3) -/
structure H4 where
  h0 : Nat
  h1 : Nat
  h2 : Nat
  h3 : Nat
deriving DecidableEq, Repr

/-- mix, src/spooky-c.c lines 53-70: one application of the long mixer to a
96-byte block given as 12 little-endian words -/
def mix (data : List Nat) (s : H12) : H12 :=
  let w : Nat → Nat := fun i => data.getD i 0
  let h0 := s.h0
  let h1 := s.h1
  let h2 := s.h2
  let h3 := s.h3
  let h4 := s.h4
  let h5 := s.h5
  let h6 := s.h6
  let h7 := s.h7
  let h8 := s.h8
  let h9 := s.h9
  let h10 := s.h10
  let h11 := s.h11
  let h0 := add64 h0 (w 0)
  let h11 := rot64 h11 32
  let h9 := h9 ^^^ h1
  let h11 := add64 h11 h10
  let h1 := add64 h1 h10
  let h1 := add64 h1 (w 1)
  let h0 := rot64 h0 41
  let h10 := h10 ^^^ h2
  let h0 := add64 h0 h11
  let h2 := add64 h2 h11
  let h2 := add64 h2 (w 2)
  let h1 := rot64 h1 12
  let h11 := h11 ^^^ h3
  let h1 := add64 h1 h0
  let h3 := add64 h3 h0
  let h3 := add64 h3 (w 3)
  let h2 := rot64 h2 24
  let h0 := h0 ^^^ h4
  let h2 := add64 h2 h1
  let h4 := add64 h4 h1
  let h4 := add64 h4 (w 4)
  let h3 := rot64 h3 8
  let h1 := h1 ^^^ h5
  let h3 := add64 h3 h2
  let h5 := add64 h5 h2
  let h5 := add64 h5 (w 5)
  let h4 := rot64 h4 42
  let h2 := h2 ^^^ h6
  let h4 := add64 h4 h3
  let h6 := add64 h6 h3
  let h6 := add64 h6 (w 6)
  let h5 := rot64 h5 32
  let h3 := h3 ^^^ h7
  let h5 := add64 h5 h4
  let h7 := add64 h7 h4
  let h7 := add64 h7 (w 7)
  let h6 := rot64 h6 13
  let h4 := h4 ^^^ h8
  let h6 := add64 h6 h5
  let h8 := add64 h8 h5
  let h8 := add64 h8 (w 8)
  let h7 := rot64 h7 30
  let h5 := h5 ^^^ h9
  let h7 := add64 h7 h6
  let h9 := add64 h9 h6
  let h9 := add64 h9 (w 9)
  let h8 := rot64 h8 20
  let h6 := h6 ^^^ h10
  let h8 := add64 h8 h7
  let h10 := add64 h10 h7
  let h10 := add64 h10 (w 10)
  let h9 := rot64 h9 47
  let h7 := h7 ^^^ h11
  let h9 := add64 h9 h8
  let h11 := add64 h11 h8
  let h11 := add64 h11 (w 11)
  let h10 := rot64 h10 16
  let h8 := h8 ^^^ h0
  let h10 := add64 h10 h9
  let h0 := add64 h0 h9
  ⟨h0, h1, h2, h3, h4, h5, h6, h7, h8, h9, h10, h11⟩

/-- one pass of the 12 lines of end, src/spooky-c.c lines 94-105 (the code
repeats the same 12 lines twice, lines 108-119) -/
def endRound (s : H12) : H12 :=
  let h0 := s.h0
  let h1 := s.h1
  let h2 := s.h2
  let h3 := s.h3
  let h4 := s.h4
  let h5 := s.h5
  let h6 := s.h6
  let h7 := s.h7
  let h8 := s.h8
  let h9 := s.h9
  let h10 := s.h10
  let h11 := s.h11
  let h0 := rot64 h0 29
  let h2 := h2 ^^^ h11
  let h0 := add64 h0 h2
  let h1 := rot64 h1 52
  let h3 := h3 ^^^ h0
  let h1 := add64 h1 h3
  let h2 := rot64 h2 31
  let h4 := h4 ^^^ h1
  let h2 := add64 h2 h4
  let h3 := rot64 h3 43
  let h5 := h5 ^^^ h2
  let h3 := add64 h3 h5
  let h4 := rot64 h4 56
  let h6 := h6 ^^^ h3
  let h4 := add64 h4 h6
  let h5 := rot64 h5 34
  let h7 := h7 ^^^ h4
  let h5 := add64 h5 h7
  let h6 := rot64 h6 21
  let h8 := h8 ^^^ h5
  let h6 := add64 h6 h8
  let h7 := rot64 h7 17
  let h9 := h9 ^^^ h6
  let h7 := add64 h7 h9
  let h8 := rot64 h8 44
  let h10 := h10 ^^^ h7
  let h8 := add64 h8 h10
  let h9 := rot64 h9 38
  let h11 := h11 ^^^ h8
  let h9 := add64 h9 h11
  let h10 := rot64 h10 50
  let h0 := h0 ^^^ h9
  let h10 := add64 h10 h0
  let h11 := rot64 h11 50
  let h1 := h1 ^^^ h10
  let h11 := add64 h11 h1
  ⟨h0, h1, h2, h3, h4, h5, h6, h7, h8, h9, h10, h11⟩

/-- end, src/spooky-c.c lines 89-120: the 12-line round applied twice -/
def end12 (s : H12) : H12 := endRound (endRound s)

/-- short_mix, src/spooky-c.c lines 138-153 -/
def short_mix (s : H4) : H4 :=
  let h0 := s.h0
  let h1 := s.h1
  let h2 := s.h2
  let h3 := s.h3
  let h2 := rot64 h2 50
  let h2 := add64 h2 h3
  let h0 := h0 ^^^ h2
  let h3 := rot64 h3 52
  let h3 := add64 h3 h0
  let h1 := h1 ^^^ h3
  let h0 := rot64 h0 30
  let h0 := add64 h0 h1
  let h2 := h2 ^^^ h0
  let h1 := rot64 h1 41
  let h1 := add64 h1 h2
  let h3 := h3 ^^^ h1
  let h2 := rot64 h2 54
  let h2 := add64 h2 h3
  let h0 := h0 ^^^ h2
  let h3 := rot64 h3 48
  let h3 := add64 h3 h0
  let h1 := h1 ^^^ h3
  let h0 := rot64 h0 38
  let h0 := add64 h0 h1
  let h2 := h2 ^^^ h0
  let h1 := rot64 h1 37
  let h1 := add64 h1 h2
  let h3 := h3 ^^^ h1
  let h2 := rot64 h2 62
  let h2 := add64 h2 h3
  let h0 := h0 ^^^ h2
  let h3 := rot64 h3 34
  let h3 := add64 h3 h0
  let h1 := h1 ^^^ h3
  let h0 := rot64 h0 5
  let h0 := add64 h0 h1
  let h2 := h2 ^^^ h0
  let h1 := rot64 h1 36
  let h1 := add64 h1 h2
  let h3 := h3 ^^^ h1
  ⟨h0, h1, h2, h3⟩

/-- short_end, src/spooky-c.c lines 170-183 -/
def short_end (s : H4) : H4 :=
  let h0 := s.h0
  let h1 := s.h1
  let h2 := s.h2
  let h3 := s.h3
  let h3 := h3 ^^^ h2
  let h2 := rot64 h2 15
  let h3 := add64 h3 h2
  let h0 := h0 ^^^ h3
  let h3 := rot64 h3 52
  let h0 := add64 h0 h3
  let h1 := h1 ^^^ h0
  let h0 := rot64 h0 26
  let h1 := add64 h1 h0
  let h2 := h2 ^^^ h1
  let h1 := rot64 h1 51
  let h2 := add64 h2 h1
  let h3 := h3 ^^^ h2
  let h2 := rot64 h2 28
  let h3 := add64 h3 h2
  let h0 := h0 ^^^ h3
  let h3 := rot64 h3 9
  let h0 := add64 h0 h3
  let h1 := h1 ^^^ h0
  let h0 := rot64 h0 47
  let h1 := add64 h1 h0
  let h2 := h2 ^^^ h1
  let h1 := rot64 h1 54
  let h2 := add64 h2 h1
  let h3 := h3 ^^^ h2
  let h2 := rot64 h2 32
  let h3 := add64 h3 h2
  let h0 := h0 ^^^ h3
  let h3 := rot64 h3 25
  let h0 := add64 h0 h3
  let h1 := h1 ^^^ h0
  let h0 := rot64 h0 63
  let h1 := add64 h1 h0
  ⟨h0, h1, h2, h3⟩

/-- chunk phase of spooky_shorthash, src/spooky-c.c lines 205-231: the
accumulators a b c d (as h0 h1 h2 h3) after all complete 32-byte sets and
the optional trailing 16-byte set, just before line 234 -/
def shortChunks (message : List Nat) (hash1 hash2 : Nat) : H4 :=
  let length := message.length
  let rem32 := length % 32
  let s : H4 := ⟨hash1, hash2, 0, 0⟩
  if 15 < length then
    let n32 := length / 32
    let s := (List.range n32).foldl (fun s i =>
      let blk := (message.drop (32 * i)).take 32
      let s : H4 := { s with h2 := add64 s.h2 (le64 blk),
                             h3 := add64 s.h3 (le64 (blk.drop 8)) }
      let s := short_mix s
      { s with h0 := add64 s.h0 (le64 (blk.drop 16)),
               h1 := add64 s.h1 (le64 (blk.drop 24)) }) s
    if 16 ≤ rem32 then
      let t := message.drop (32 * n32)
      short_mix { s with h2 := add64 s.h2 (le64 t),
                         h3 := add64 s.h3 (le64 (t.drop 8)) }
    else s
  else s

/-- byte offset at which the final 0..15-byte tail of the short hash starts -/
def shortTailStart (length : Nat) : Nat :=
  if 15 < length ∧ 16 ≤ length % 32 then 32 * (length / 32) + 16
  else 32 * (length / 32)

/-- tail switch of spooky_shorthash, src/spooky-c.c lines 235-274, with the C
fallthrough expanded per case; t is the tail, r its length, c and d the
accumulators entering the switch -/
def shortTail (t : List Nat) (r : Nat) (c d : Nat) : Nat × Nat :=
  match r with
  | 15 =>
    let d := add64 d ((t.getD 14 0) <<< 48)
    let d := add64 d ((t.getD 13 0) <<< 40)
    let d := add64 d ((t.getD 12 0) <<< 32)
    let d := add64 d (le32 (t.drop 8))
    let c := add64 c (le64 t)
    (c, d)
  | 14 =>
    let d := add64 d ((t.getD 13 0) <<< 40)
    let d := add64 d ((t.getD 12 0) <<< 32)
    let d := add64 d (le32 (t.drop 8))
    let c := add64 c (le64 t)
    (c, d)
  | 13 =>
    let d := add64 d ((t.getD 12 0) <<< 32)
    let d := add64 d (le32 (t.drop 8))
    let c := add64 c (le64 t)
    (c, d)
  | 12 =>
    let d := add64 d (le32 (t.drop 8))
    let c := add64 c (le64 t)
    (c, d)
  | 11 =>
    let d := add64 d ((t.getD 10 0) <<< 16)
    let d := add64 d ((t.getD 9 0) <<< 8)
    let d := add64 d (t.getD 8 0)
    let c := add64 c (le64 t)
    (c, d)
  | 10 =>
    let d := add64 d ((t.getD 9 0) <<< 8)
    let d := add64 d (t.getD 8 0)
    let c := add64 c (le64 t)
    (c, d)
  | 9 =>
    let d := add64 d (t.getD 8 0)
    let c := add64 c (le64 t)
    (c, d)
  | 8 =>
    let c := add64 c (le64 t)
    (c, d)
  | 7 =>
    let c := add64 c ((t.getD 6 0) <<< 48)
    let c := add64 c ((t.getD 5 0) <<< 40)
    let c := add64 c ((t.getD 4 0) <<< 32)
    let c := add64 c (le32 t)
    (c, d)
  | 6 =>
    let c := add64 c ((t.getD 5 0) <<< 40)
    let c := add64 c ((t.getD 4 0) <<< 32)
    let c := add64 c (le32 t)
    (c, d)
  | 5 =>
    let c := add64 c ((t.getD 4 0) <<< 32)
    let c := add64 c (le32 t)
    (c, d)
  | 4 =>
    let c := add64 c (le32 t)
    (c, d)
  | 3 =>
    let c := add64 c ((t.getD 2 0) <<< 16)
    let c := add64 c ((t.getD 1 0) <<< 8)
    let c := add64 c (t.getD 0 0)
    (c, d)
  | 2 =>
    let c := add64 c ((t.getD 1 0) <<< 8)
    let c := add64 c (t.getD 0 0)
    (c, d)
  | 1 =>
    let c := add64 c (t.getD 0 0)
    (c, d)
  | 0 =>
    let c := add64 c SC_CONST
    let d := add64 d SC_CONST
    (c, d)
  | _ => (c, d)

/-- spooky_shorthash with the value assigned to d at line 234 (the entry to
the tail packing) exposed as an explicit argument dTail -/
def shorthashD (message : List Nat) (hash1 hash2 dTail : Nat) : Nat × Nat :=
  let s := shortChunks message hash1 hash2
  let ts := shortTailStart message.length
  let cd := shortTail (message.drop ts) (message.length - ts) s.h2 dTail
  let s2 := short_end ⟨s.h0, s.h1, cd.1, cd.2⟩
  (s2.h0, s2.h1)

/-- the value line 234 of src/spooky-c.c assigns to d on entry to the tail
packing: d = ((uint64_t)length) << 56 (an assignment, not an addition) -/
def tailEntryD (message : List Nat) : Nat := (message.length <<< 56) % M64

/-- spooky_shorthash, src/spooky-c.c lines 185-278: the 32-byte sets and the
optional 16-byte set (lines 211-231), then the assignment d = length << 56 at
line 234, then the tail switch (lines 235-274) and short_end -/
def spooky_shorthash (message : List Nat) (hash1 hash2 : Nat) : Nat × Nat :=
  let length := message.length
  let rem32 := length % 32
  let s : H4 := ⟨hash1, hash2, 0, 0⟩
  let s :=
    if 15 < length then
      let n32 := length / 32
      let s := (List.range n32).foldl (fun s i =>
        let blk := (message.drop (32 * i)).take 32
        let s : H4 := { s with h2 := add64 s.h2 (le64 blk),
                               h3 := add64 s.h3 (le64 (blk.drop 8)) }
        let s := short_mix s
        { s with h0 := add64 s.h0 (le64 (blk.drop 16)),
                 h1 := add64 s.h1 (le64 (blk.drop 24)) }) s
      if 16 ≤ rem32 then
        let t := message.drop (32 * n32)
        short_mix { s with h2 := add64 s.h2 (le64 t),
                           h3 := add64 s.h3 (le64 (t.drop 8)) }
      else s
    else s
  let ts := shortTailStart length
  let cd := shortTail (message.drop ts) (length - ts) s.h2
    ((length <<< 56) % M64)
  let s2 := short_end ⟨s.h0, s.h1, cd.1, cd.2⟩
  (s2.h0, s2.h1)

/-- struct spooky_state, src/spooky-c.h lines 20-25; m_data is kept as the 96
raw bytes of the buffer -/
structure SpookyState where
  m_data : List Nat
  m_state : H12
  m_length : Nat
  m_remainder : Nat
deriving DecidableEq, Repr

/-- a concrete all-zero state standing for freshly allocated storage (the C
struct is caller-allocated; spooky_init overwrites only some fields) -/
def emptyState : SpookyState :=
  { m_data := List.replicate 96 0,
    m_state := ⟨0, 0, 0, 0, 0, 0, 0, 0, 0, 0, 0, 0⟩,
    m_length := 0,
    m_remainder := 0 }

/-- spooky_init, src/spooky-c.c lines 280-286: sets m_length and m_remainder
to 0 and stores the seeds in m_state[0], m_state[1]; all other fields of the
caller-owned struct keep their previous contents -/
def spooky_init (state : SpookyState) (seed1 seed2 : Nat) : SpookyState :=
  { state with
    m_length := 0,
    m_remainder := 0,
    m_state := { state.m_state with h0 := seed1, h1 := seed2 } }

/-- the 12-word seed expansion h0=h3=h6=h9=seed1, h1=h4=h7=h10=seed2,
h2=h5=h8=h11=SC_CONST (src/spooky-c.c lines 310-312 and 435-437) -/
def init12 (seed1 seed2 : Nat) : H12 :=
  ⟨seed1, seed2, SC_CONST, seed1, seed2, SC_CONST,
   seed1, seed2, SC_CONST, seed1, seed2, SC_CONST⟩

/-- spooky_update, src/spooky-c.c lines 288-376 (the unaligned-reads-allowed
path, which never copies whole blocks through m_data; the two paths compute
the same words).  Note the final store of m_remainder is guarded by
remainder > 0 exactly as in the C source (line 358). -/
def spooky_update (state : SpookyState) (message : List Nat) : SpookyState :=
  let length := message.length
  let newLength := length + state.m_remainder
  if newLength < 96 then
    { state with
      m_data := state.m_data.take state.m_remainder ++ message ++
                state.m_data.drop newLength,
      m_length := length + state.m_length,
      m_remainder := newLength }
  else
    let h :=
      if state.m_length < 96 then init12 state.m_state.h0 state.m_state.h1
      else state.m_state
    let newTotal := length + state.m_length
    let hdm :=
      if state.m_remainder ≠ 0 then
        let pre := 96 - state.m_remainder
        let block := state.m_data.take state.m_remainder ++ message.take pre
        (mix (words12 block) h, message.drop pre, block)
      else (h, message, state.m_data)
    let h := hdm.1
    let rest := hdm.2.1
    let data1 := hdm.2.2
    let nb := rest.length / 96
    let h := (List.range nb).foldl
      (fun h i => mix (words12 ((rest.drop (96 * i)).take 96)) h) h
    let rem := rest.length % 96
    if 0 < rem then
      { m_data := (rest.drop (96 * nb)).take rem ++ data1.drop rem,
        m_state := h, m_length := newTotal, m_remainder := rem }
    else
      { m_data := data1, m_state := h, m_length := newTotal,
        m_remainder := state.m_remainder }

/-- spooky_final, src/spooky-c.c lines 378-416.  hash1 and hash2 are the
values sitting in the caller's two output variables when the call is made
(the C short path reads them through the out pointers).  The result is the
state as left in memory together with the two output words. -/
def spooky_final (state : SpookyState) (hash1 hash2 : Nat) :
    SpookyState × Nat × Nat :=
  if state.m_length < 96 then
    (state, spooky_shorthash (state.m_data.take state.m_length) hash1 hash2)
  else
    let rem := state.m_remainder
    let data1 := ((state.m_data.take rem) ++
      List.replicate (96 - rem) 0).set 95 (state.m_length % 256)
    let h := end12 (mix (words12 data1) state.m_state)
    ({ state with m_data := data1 }, h.h0, h.h1)

/-- spooky_hash128, src/spooky-c.c lines 418-467 (unaligned-reads-allowed
path); hash1 and hash2 carry the two seeds in -/
def spooky_hash128 (message : List Nat) (hash1 hash2 : Nat) : Nat × Nat :=
  if message.length < 96 then spooky_shorthash message hash1 hash2
  else
    let h := init12 hash1 hash2
    let nb := message.length / 96
    let h := (List.range nb).foldl
      (fun h i => mix (words12 ((message.drop (96 * i)).take 96)) h) h
    let rem := message.length - 96 * nb
    let buf := ((message.drop (96 * nb)).take rem ++
      List.replicate (96 - rem) 0).set 95 (message.length % 256)
    let h := end12 (mix (words12 buf) h)
    (h.h0, h.h1)

/-- spooky_hash64, src/spooky-c.c lines 469-474 -/
def spooky_hash64 (message : List Nat) (seed : Nat) : Nat :=
  (spooky_hash128 message seed seed).1

/-- spooky_hash32, src/spooky-c.c lines 476-481 -/
def spooky_hash32 (message : List Nat) (seed : Nat) : Nat :=
  (spooky_hash128 message seed seed).1 % 2 ^ 32

/-! Spec-side definitions: the same operations written the way the
specification states them, to be compared with the code transcriptions. -/

/-- rotation schedule of the long mixer as the spec lists it -/
def mixRotTable : List Nat := [32, 41, 12, 24, 8, 42, 32, 13, 30, 20, 47, 16]

/-- rotation schedule of the long finalizer as the spec lists it -/
def endRotTable : List Nat := [29, 52, 31, 43, 56, 34, 21, 17, 44, 38, 50, 50]

/-- rotation schedule of the short mixer as the spec lists it -/
def shortMixRotTable : List Nat :=
  [50, 52, 30, 41, 54, 48, 38, 37, 62, 34, 5, 36]

/-- rotation schedule of the short finalizer as the spec lists it -/
def shortEndRotTable : List Nat := [15, 52, 26, 51, 28, 9, 47, 54, 32, 25, 63]

/-- all rotation counts any mixer, finalizer or hash routine passes to rot64 -/
def allRotCounts : List Nat :=
  mixRotTable ++ endRotTable ++ shortMixRotTable ++ shortEndRotTable

/-- accumulator slot read with mod-12 indexing -/
def hget (s : H12) (i : Nat) : Nat :=
  match i % 12 with
  | 0 => s.h0
  | 1 => s.h1
  | 2 => s.h2
  | 3 => s.h3
  | 4 => s.h4
  | 5 => s.h5
  | 6 => s.h6
  | 7 => s.h7
  | 8 => s.h8
  | 9 => s.h9
  | 10 => s.h10
  | _ => s.h11

/-- accumulator slot written with mod-12 indexing -/
def hset (s : H12) (i : Nat) (v : Nat) : H12 :=
  match i % 12 with
  | 0 => { s with h0 := v }
  | 1 => { s with h1 := v }
  | 2 => { s with h2 := v }
  | 3 => { s with h3 := v }
  | 4 => { s with h4 := v }
  | 5 => { s with h5 := v }
  | 6 => { s with h6 := v }
  | 7 => { s with h7 := v }
  | 8 => { s with h8 := v }
  | 9 => { s with h9 := v }
  | 10 => { s with h10 := v }
  | _ => { s with h11 := v }

/-- step i of the long mixer exactly as claim C7 states it: h[i] += data[i];
h[(i+11)%12] = rot64(h[(i+11)%12], R[i]); h[(i+9)%12] ^= h[(i+1)%12];
h[(i+11)%12] += h[(i+10)%12]; h[(i+1)%12] += h[(i+10)%12] -/
def mixStep (data : List Nat) (s : H12) (i : Nat) : H12 :=
  let s := hset s i (add64 (hget s i) (data.getD i 0))
  let s := hset s (i + 11) (rot64 (hget s (i + 11)) (mixRotTable.getD i 0))
  let s := hset s (i + 9) (hget s (i + 9) ^^^ hget s (i + 1))
  let s := hset s (i + 11) (add64 (hget s (i + 11)) (hget s (i + 10)))
  let s := hset s (i + 1) (add64 (hget s (i + 1)) (hget s (i + 10)))
  s

/-- the long mixer as the spec states it: steps i = 0..11 in order -/
def mixSpec (data : List Nat) (s : H12) : H12 :=
  (List.range 12).foldl (mixStep data) s

/-- step i of one long-finalizer round as the spec states it:
h[i] = rot64(h[i], F[i]); h[(i+2)%12] ^= h[(i+11)%12]; h[i] += h[(i+2)%12] -/
def endStep (s : H12) (i : Nat) : H12 :=
  let s := hset s i (rot64 (hget s i) (endRotTable.getD i 0))
  let s := hset s (i + 2) (hget s (i + 2) ^^^ hget s (i + 11))
  let s := hset s i (add64 (hget s i) (hget s (i + 2)))
  s

/-- one long-finalizer round as the spec states it -/
def endRoundSpec (s : H12) : H12 := (List.range 12).foldl endStep s

/-- the long finalizer as the spec states it: the round applied twice -/
def endSpec (s : H12) : H12 := endRoundSpec (endRoundSpec s)

/-- 4-slot accumulator read with mod-4 indexing -/
def sget (s : H4) (i : Nat) : Nat :=
  match i % 4 with
  | 0 => s.h0
  | 1 => s.h1
  | 2 => s.h2
  | _ => s.h3

/-- 4-slot accumulator written with mod-4 indexing -/
def sset (s : H4) (i : Nat) (v : Nat) : H4 :=
  match i % 4 with
  | 0 => { s with h0 := v }
  | 1 => { s with h1 := v }
  | 2 => { s with h2 := v }
  | _ => { s with h3 := v }

/-- step j of the short mixer as the spec states it: with x = h[(j+2)%4],
y = h[(j+3)%4], z = h[j%4]: x = rot64(x, r_j); x += y; z ^= x -/
def shortMixStep (s : H4) (j : Nat) : H4 :=
  let s := sset s (j + 2) (rot64 (sget s (j + 2)) (shortMixRotTable.getD j 0))
  let s := sset s (j + 2) (add64 (sget s (j + 2)) (sget s (j + 3)))
  let s := sset s j (sget s j ^^^ sget s (j + 2))
  s

/-- the short mixer as the spec states it: 12 steps -/
def shortMixSpec (s : H4) : H4 := (List.range 12).foldl shortMixStep s

/-- step j of the short finalizer as the spec states it: with x = h[(j+2)%4],
z = h[(j+3)%4]: z ^= x; x = rot64(x, r_j); z += x -/
def shortEndStep (s : H4) (j : Nat) : H4 :=
  let s := sset s (j + 3) (sget s (j + 3) ^^^ sget s (j + 2))
  let s := sset s (j + 2) (rot64 (sget s (j + 2)) (shortEndRotTable.getD j 0))
  let s := sset s (j + 3) (add64 (sget s (j + 3)) (sget s (j + 2)))
  s

/-- the short finalizer as the spec states it: 11 steps -/
def shortEndSpec (s : H4) : H4 := (List.range 11).foldl shortEndStep s

/-- the one-shot digest routine as spec section 4.6 and claim C6 state it -/
def hash128Spec (message : List Nat) (seed1 seed2 : Nat) : Nat × Nat :=
  if message.length < 96 then spooky_shorthash message seed1 seed2
  else
    let nb := message.length / 96
    let h := (List.range nb).foldl
      (fun h i => mix (words12 ((message.drop (96 * i)).take 96)) h)
      (init12 seed1 seed2)
    let leftover := message.drop (96 * nb)
    let lastBlock := (leftover ++
      List.replicate (96 - leftover.length) 0).set 95 (message.length % 256)
    let h := end12 (mix (words12 lastBlock) h)
    (h.h0, h.h1)

/-- the part of a streaming state the specification treats as meaningful:
the running accumulators, the total length, and the buffered remainder
bytes.  Two states agreeing here are indistinguishable to any sequence of
spec-level update and final calls. -/
def logicalEq (s t : SpookyState) : Prop :=
  s.m_state = t.m_state ∧ s.m_length = t.m_length ∧
  s.m_remainder = t.m_remainder ∧
  s.m_data.take s.m_remainder = t.m_data.take t.m_remainder

/-! Concrete inputs used by counterexamples and witnesses. -/

/-- a 96-byte message with bytes 0,1,...,95 -/
def msg96 : List Nat := List.range 96

/-- a 16-byte message with bytes 0,1,...,15 -/
def msg16 : List Nat := List.range 16

/-- a concrete streaming state with m_length 97, one buffered byte, and an
all-zero buffer beyond it -/
def stC4 : SpookyState :=
  { m_data := List.replicate 96 0,
    m_state := ⟨3, 1, 4, 1, 5, 9, 2, 6, 5, 3, 5, 8⟩,
    m_length := 97,
    m_remainder := 1 }

/-- a concrete streaming state in the long regime: 200 bytes appended, 8 of
them buffered -/
def stC8 : SpookyState :=
  { m_data := List.range 96,
    m_state := ⟨1, 2, 3, 4, 5, 6, 7, 8, 9, 10, 11, 12⟩,
    m_length := 200,
    m_remainder := 8 }

/-! Helper theorems shared by the claim proofs. -/

/-- taking at most m elements is unaffected by a set at position n ≥ m -/
theorem take_set_of_le {α : Type} (a : α) {n m : Nat} (l : List α)
    (h : m ≤ n) : (l.set n a).take m = l.take m :=
  List.ext_getElem? fun i => by
    rw [List.getElem?_take, List.getElem?_take]
    split
    · next h2 => rw [List.getElem?_set_ne (by omega)]
    · rfl

/-- spooky_update maps states agreeing on the spec-level logical state (the
accumulators, the total length, and the buffered remainder bytes) to states
that again agree on it, whatever bytes sit in the two buffers beyond the
remainder -/
theorem update_respects_logicalEq (s t : SpookyState) (m : List Nat)
    (h : logicalEq s t) (hs : s.m_remainder ≤ s.m_data.length)
    (ht : t.m_remainder ≤ t.m_data.length) :
    logicalEq (spooky_update s m) (spooky_update t m) := by
  obtain ⟨hst, hlen, hrem, hdat⟩ := h
  have hdat' : s.m_data.take s.m_remainder = t.m_data.take s.m_remainder := by
    rw [hdat, hrem]
  have ht' : s.m_remainder ≤ t.m_data.length := hrem ▸ ht
  simp only [spooky_update, ← hrem, ← hlen, ← hst]
  by_cases hc1 : m.length + s.m_remainder < 96
  · simp only [if_pos hc1]
    have key : ∀ (d : List Nat), s.m_remainder ≤ d.length →
        ((d.take s.m_remainder ++ m ++ d.drop (m.length + s.m_remainder)).take
          (m.length + s.m_remainder)) = d.take s.m_remainder ++ m := by
      intro d hd
      have h1 : (d.take s.m_remainder).length = s.m_remainder := by
        simp [List.length_take]
        omega
      rw [List.append_assoc, List.take_append_eq_append_take,
        List.take_of_length_le (by omega), h1, Nat.add_sub_cancel,
        List.take_left]
    refine ⟨rfl, rfl, rfl, ?_⟩
    rw [key s.m_data hs, key t.m_data ht', hdat']
  · simp only [if_neg hc1]
    by_cases hr0 : s.m_remainder ≠ 0
    · simp only [if_pos hr0]
      rw [hdat']
      exact ⟨rfl, rfl, rfl, rfl⟩
    · simp only [if_neg hr0]
      have hr0' : s.m_remainder = 0 := by omega
      by_cases hrem2 : 0 < m.length % 96
      · simp only [if_pos hrem2]
        have hx : ((m.drop (96 * (m.length / 96))).take (m.length % 96)).length
            = m.length % 96 := by
          simp [List.length_take, List.length_drop]
          omega
        refine ⟨rfl, rfl, rfl, ?_⟩
        rw [List.take_left' hx, List.take_left' hx]
      · simp only [if_neg hrem2]
        refine ⟨rfl, rfl, rfl, ?_⟩
        rw [hr0']
        simp

/-- foldl over the range 0..11 unfolded, 12-word accumulators -/
theorem foldl_range12_H12 (f : H12 → Nat → H12) (s : H12) :
    (List.range 12).foldl f s =
      f (f (f (f (f (f (f (f (f (f (f (f s 0) 1) 2) 3) 4) 5) 6) 7) 8) 9) 10)
        11 := rfl

/-- foldl over the range 0..11 unfolded, 4-word accumulators -/
theorem foldl_range12_H4 (f : H4 → Nat → H4) (s : H4) :
    (List.range 12).foldl f s =
      f (f (f (f (f (f (f (f (f (f (f (f s 0) 1) 2) 3) 4) 5) 6) 7) 8) 9) 10)
        11 := rfl

/-- foldl over the range 0..10 unfolded, 4-word accumulators -/
theorem foldl_range11_H4 (f : H4 → Nat → H4) (s : H4) :
    (List.range 11).foldl f s =
      f (f (f (f (f (f (f (f (f (f (f s 0) 1) 2) 3) 4) 5) 6) 7) 8) 9) 10 := rfl

/-- the unrolled long-finalizer round equals its table-driven spec form -/
theorem endRound_eq_spec (s : H12) : endRound s = endRoundSpec s := by
  cases s
  rw [endRoundSpec, foldl_range12_H12]
  simp only [endStep, hget, hset, endRotTable, List.getD, Nat.reduceAdd,
    Nat.reduceMod]
  rfl

/-- the unrolled long finalizer equals its table-driven spec form -/
theorem end_eq_spec (s : H12) : end12 s = endSpec s := by
  rw [end12, endSpec, endRound_eq_spec, endRound_eq_spec]

/-- the unrolled short mixer equals its table-driven spec form -/
theorem short_mix_eq_spec (s : H4) : short_mix s = shortMixSpec s := by
  cases s
  rw [shortMixSpec, foldl_range12_H4]
  simp only [shortMixStep, sget, sset, shortMixRotTable, List.getD,
    Nat.reduceAdd, Nat.reduceMod]
  rfl

/-- the unrolled short finalizer equals its table-driven spec form -/
theorem short_end_eq_spec (s : H4) : short_end s = shortEndSpec s := by
  cases s
  rw [shortEndSpec, foldl_range11_H4]
  simp only [shortEndStep, sget, sset, shortEndRotTable, List.getD,
    Nat.reduceAdd, Nat.reduceMod]
  rfl

/-- the monolithic spooky_shorthash transcription factors through the
chunk-phase, tail-entry and tail-switch analysis definitions -/
theorem shorthash_factor (message : List Nat) (hash1 hash2 : Nat) :
    spooky_shorthash message hash1 hash2 =
      shorthashD message hash1 hash2 (tailEntryD message) := rfl

/-! Claim theorems. -/

/-- C7: one application of the long mixer performs exactly, for i = 0..11 in
order with mod-12 indexing and all additions modulo 2^64: h[i] += data[i];
h[(i+11)%12] = rot64(h[(i+11)%12], R[i]) with R the table
{32,41,12,24,8,42,32,13,30,20,47,16}; h[(i+9)%12] ^= h[(i+1)%12];
h[(i+11)%12] += h[(i+10)%12]; h[(i+1)%12] += h[(i+10)%12]. -/
theorem c7_mix_matches_table_steps :
    ∀ (data : List Nat) (s : H12), mix data s = mixSpec data s := by
  intro data s
  cases s
  rw [mixSpec, foldl_range12_H12]
  simp only [mixStep, hget, hset, mixRotTable, List.getD, Nat.reduceAdd,
    Nat.reduceMod]
  rfl

/-- C9: for every message and every seed, hash64 equals the first output
word of hash128 invoked with both seed words equal to that seed. -/
theorem c9_hash64_is_first_word_of_hash128 :
    ∀ (message : List Nat) (seed : Nat),
      spooky_hash64 message seed = (spooky_hash128 message seed seed).1 :=
  fun _ _ => rfl

/-- C10: every rotation count used by the long mixer, the long finalizer,
the short mixer and the short finalizer lies in [1, 63], so the shift
x >> (64 - k) inside rot64 is by an amount in [1, 63] and never by 64. -/
theorem c10_rot_counts_in_range :
    ∀ k ∈ allRotCounts, 1 ≤ k ∧ k ≤ 63 ∧ 1 ≤ 64 - k ∧ 64 - k ≤ 63 := by
  decide

/-- witness for C10 at the concrete rotation count 32 (the first entry of
the long-mixer table) -/
theorem c10_rot_counts_in_range_witness :
    32 ∈ allRotCounts ∧ (1 ≤ 32 ∧ 32 ≤ 63 ∧ 1 ≤ 64 - 32 ∧ 64 - 32 ≤ 63) :=
  ⟨by decide, c10_rot_counts_in_range 32 (by decide)⟩

/-- C1 counterexample: the 96-byte message 0,1,...,95 split into fragments
of 50 and 46 bytes and fed through init, update, update, final yields a
different result than the one-shot hash128 of the whole message with the
same (zero) seeds.  The cause: the second update consumes the buffered 50
bytes, ends exactly on a block boundary, and the guarded store at line 358
of src/spooky-c.c then leaves the stale m_remainder = 50 behind, so final
re-mixes already-folded bytes. -/
theorem c1_streaming_differs_from_oneshot :
    (spooky_final
        (spooky_update (spooky_update (spooky_init emptyState 0 0)
          (msg96.take 50)) (msg96.drop 50)) 0 0).2 ≠
      spooky_hash128 msg96 0 0 := by decide

/-- C2 counterexample: after init with seeds 1 and 2 and no updates, final
called with 0 in both output variables returns the short hash seeded with
the incoming values 0,0 rather than the stored seeds 1,2, and the result
changes when the incoming values change: the claim that the result is a
function of the state alone, seeded with the original seeds, is false. -/
theorem c2_final_uses_incoming_values :
    (spooky_final (spooky_init emptyState 1 2) 0 0).2 =
        spooky_shorthash [] 0 0 ∧
      (spooky_final (spooky_init emptyState 1 2) 0 0).2 ≠
        spooky_shorthash [] 1 2 ∧
      (spooky_final (spooky_init emptyState 1 2) 0 0).2 ≠
        (spooky_final (spooky_init emptyState 1 2) 3 4).2 := by
  refine ⟨rfl, by decide, by decide⟩

/-- C3 counterexample: at the 16-byte message 0,1,...,15 with seeds 1 and 0
the d accumulated by the chunk processing is nonzero, and the short hash
computed with the tail-entry d the claim prescribes (accumulated d plus
length << 56) differs from what the code returns: line 234 assigns
d = length << 56, discarding the accumulated value. -/
theorem c3_tail_entry_is_not_a_sum :
    (shortChunks msg16 1 0).h3 ≠ 0 ∧
      spooky_shorthash msg16 1 0 ≠
        shorthashD msg16 1 0
          (add64 (shortChunks msg16 1 0).h3 ((msg16.length <<< 56) % M64)) := by
  refine ⟨by decide, by decide⟩

/-- C3 amended: the value of d entering the tail-packing step equals
(length << 56) mod 2^64 outright; the d accumulated by the preceding
32-byte and 16-byte chunk processing is discarded by the assignment at
line 234, and the tail bytes are then accumulated on top of that value. -/
theorem c3_amended_tail_entry_is_assignment :
    ∀ (message : List Nat) (hash1 hash2 : Nat),
      spooky_shorthash message hash1 hash2 =
        shorthashD message hash1 hash2 ((message.length <<< 56) % M64) :=
  fun _ _ _ => rfl

/-- C5 counterexample: after init and updates of the first 50 and the last
46 bytes of the message 0,1,...,95, the state records m_remainder = 50 and
m_length = 96, yet the first 50 buffered bytes are not the last 50 appended
bytes (they are the first 50, all of which have already been folded into
m_state): the buffered-suffix invariant is violated. -/
theorem c5_invariant_violated :
    (spooky_update (spooky_update (spooky_init emptyState 0 0) (msg96.take 50))
          (msg96.drop 50)).m_length = 96 ∧
      (spooky_update (spooky_update (spooky_init emptyState 0 0)
          (msg96.take 50)) (msg96.drop 50)).m_remainder = 50 ∧
      (spooky_update (spooky_update (spooky_init emptyState 0 0)
            (msg96.take 50)) (msg96.drop 50)).m_data.take 50 ≠
        msg96.drop (96 - 50) := by
  refine ⟨rfl, rfl, by decide⟩

/-- C4 counterexample: final is not read-only on the persisted state: at the
concrete state stC4 (m_length 97, m_remainder 1, zero buffer) the long path
zero-pads and length-tags the remainder block inside m_data itself, so the
state after final differs from the state before (its m_data byte 95 becomes
97). -/
theorem c4_final_mutates_state :
    (spooky_final stC4 0 0).1 ≠ stC4 := by decide

/-- C6: hash128 delegates to the short hash below 96 bytes with the seeds
passed straight through, and otherwise expands the seeds into the 12
accumulators, mixes every complete 96-byte block in message order, mixes
one final block formed by zero-padding the leftover bytes to 96 bytes with
its last byte overwritten by length mod 256, applies the long finalizer,
and returns (h0, h1). -/
theorem c6_hash128_matches_spec :
    ∀ (message : List Nat) (seed1 seed2 : Nat),
      spooky_hash128 message seed1 seed2 = hash128Spec message seed1 seed2 := by
  intro m s1 s2
  by_cases h : m.length < 96
  · simp [spooky_hash128, hash128Spec, h]
  · simp only [spooky_hash128, hash128Spec, h, if_false, List.length_drop]
    rw [List.take_of_length_le (le_of_eq (List.length_drop _ _))]

/-- C4 amended: final leaves m_state, m_length, m_remainder and the buffered
bytes m_data[0 .. m_remainder) unchanged; when m_length < 96 it leaves the
whole state untouched, and when m_length ≥ 96 it rewrites m_data in place,
zero-filling beyond the remainder and tagging byte 95 with m_length mod 256
(so m_data beyond the remainder is not preserved bit-for-bit). -/
theorem c4_amended_final_frame (st : SpookyState) (h1 h2 : Nat)
    (hlen : st.m_data.length = 96) (hrem : st.m_remainder < 96) :
    ((spooky_final st h1 h2).1).m_state = st.m_state ∧
    ((spooky_final st h1 h2).1).m_length = st.m_length ∧
    ((spooky_final st h1 h2).1).m_remainder = st.m_remainder ∧
    ((spooky_final st h1 h2).1).m_data.take st.m_remainder =
      st.m_data.take st.m_remainder ∧
    (st.m_length < 96 → (spooky_final st h1 h2).1 = st) ∧
    (96 ≤ st.m_length → ((spooky_final st h1 h2).1).m_data =
      (st.m_data.take st.m_remainder ++
        List.replicate (96 - st.m_remainder) 0).set 95 (st.m_length % 256)) := by
  by_cases hL : st.m_length < 96
  · simp [spooky_final, hL]
  · have hTake : (((st.m_data.take st.m_remainder ++
        List.replicate (96 - st.m_remainder) 0).set 95
          (st.m_length % 256)).take st.m_remainder) =
        st.m_data.take st.m_remainder := by
      rw [take_set_of_le _ _ (by omega),
        List.take_append_of_le_length (by simp [List.length_take]; omega),
        List.take_take, Nat.min_self]
    simp [spooky_final, hL, hTake]

/-- witness for C4 amended at the concrete state stC4 -/
theorem c4_amended_final_frame_witness :
    stC4.m_data.length = 96 ∧ stC4.m_remainder < 96 ∧
    (((spooky_final stC4 0 0).1).m_state = stC4.m_state ∧
     ((spooky_final stC4 0 0).1).m_length = stC4.m_length ∧
     ((spooky_final stC4 0 0).1).m_remainder = stC4.m_remainder ∧
     ((spooky_final stC4 0 0).1).m_data.take stC4.m_remainder =
       stC4.m_data.take stC4.m_remainder ∧
     (stC4.m_length < 96 → (spooky_final stC4 0 0).1 = stC4) ∧
     (96 ≤ stC4.m_length → ((spooky_final stC4 0 0).1).m_data =
       (stC4.m_data.take stC4.m_remainder ++
         List.replicate (96 - stC4.m_remainder) 0).set 95
           (stC4.m_length % 256))) :=
  ⟨by decide, by decide,
    c4_amended_final_frame stC4 0 0 (by decide) (by decide)⟩

/-- C8: on a state in the long regime (m_length ≥ 96), final changes only
the m_data bytes beyond the buffered remainder: m_state, m_length,
m_remainder and m_data[0 .. m_remainder) are unchanged (the logical state
is preserved), and any subsequent final produces the same outputs, and any
subsequent update produces the same logical state, as if final had not been
called. -/
theorem c8_final_frame_effect (st : SpookyState) (h1 h2 : Nat)
    (hlen : st.m_data.length = 96) (hrem : st.m_remainder < 96)
    (hL : 96 ≤ st.m_length) :
    logicalEq ((spooky_final st h1 h2).1) st ∧
    (∀ g1 g2, (spooky_final ((spooky_final st h1 h2).1) g1 g2).2 =
      (spooky_final st g1 g2).2) ∧
    (∀ msg, logicalEq (spooky_update ((spooky_final st h1 h2).1) msg)
      (spooky_update st msg)) := by
  have hL' : ¬ st.m_length < 96 := by omega
  have hTake : (((st.m_data.take st.m_remainder ++
      List.replicate (96 - st.m_remainder) 0).set 95
        (st.m_length % 256)).take st.m_remainder) =
      st.m_data.take st.m_remainder := by
    rw [take_set_of_le _ _ (by omega),
      List.take_append_of_le_length (by simp [List.length_take]; omega),
      List.take_take, Nat.min_self]
  have hD : ((st.m_data.take st.m_remainder ++
      List.replicate (96 - st.m_remainder) 0).set 95
        (st.m_length % 256)).length = 96 := by
    simp [List.length_take]
    omega
  have hfst : (spooky_final st h1 h2).1 = { st with
      m_data := (st.m_data.take st.m_remainder ++
        List.replicate (96 - st.m_remainder) 0).set 95 (st.m_length % 256) } := by
    simp [spooky_final, hL']
  have hEq : logicalEq ((spooky_final st h1 h2).1) st := by
    rw [hfst]
    exact ⟨rfl, rfl, rfl, hTake⟩
  refine ⟨hEq, ?_, ?_⟩
  · intro g1 g2
    rw [hfst]
    simp only [spooky_final, hL', if_neg, if_false]
    rw [hTake]
  · intro msg
    refine update_respects_logicalEq _ _ _ hEq ?_ ?_
    · rw [hfst]
      simp only [hD]
      omega
    · omega

/-- witness for C8 at the concrete state stC8 -/
theorem c8_final_frame_effect_witness :
    stC8.m_data.length = 96 ∧ stC8.m_remainder < 96 ∧ 96 ≤ stC8.m_length ∧
    (logicalEq ((spooky_final stC8 0 0).1) stC8 ∧
     (∀ g1 g2, (spooky_final ((spooky_final stC8 0 0).1) g1 g2).2 =
       (spooky_final stC8 g1 g2).2) ∧
     (∀ msg, logicalEq (spooky_update ((spooky_final stC8 0 0).1) msg)
       (spooky_update stC8 msg))) :=
  ⟨by decide, by decide, by decide,
    c8_final_frame_effect stC8 0 0 (by decide) (by decide) (by decide)⟩

end Spooky
